import Mathlib

/-!
# Verification of `oslo/transformers/tasks/data_bert_pretraining.py`

Shallow embedding of `ProcessorForBertPretraining` and
`DataCollatorForBertPretraining` from EleutherAI/oslo, together with proofs
of the spec's testable properties.

Token ids are modelled as `Int` (torch int64 tensors; the label sentinel
`-100` occurs).  Python exceptions are modelled by an explicit error type:
the `assert` on the missing `text` column and a `KeyError` on a missing
required field surface as `SchemaError`, `random.randrange` on an empty
range (`ValueError`) surfaces as `RangeError`, and `seq_length % 0`
(`ZeroDivisionError`) surfaces as `ZeroDivisionError`.
-/

/-- Errors raised by the data-preparation pipeline, following the spec's
taxonomy.  `SchemaError` models a required field/column being absent (the
processor's `assert "text" in column_names` and dictionary `KeyError`s),
`ConfigError` an invalid sharding configuration, `RangeError` the
`ValueError` of `random.randrange` on an empty range, and
`ZeroDivisionError` the Python error of `seq_length % 0`. -/
inductive Err where
  | SchemaError : Err
  | ConfigError : Err
  | RangeError : Err
  | ZeroDivisionError : Err
  deriving DecidableEq, Repr

/-! ## ProcessorForBertPretraining -/

/-- `self._chunk_size = max_length - 3` (line 17 of the source). -/
def chunkSizeOf (maxLength : Nat) : Nat := maxLength - 3

/-- The `while len(self._buffer) >= self._chunk_size` loop (lines 40-43):
repeatedly emit the first `chunkSize` ids of the buffer as a chunk and keep
the rest.  Terminates for `0 < chunkSize` (the Python loop diverges at
`chunk_size ≤ 0`; the `else` branch is only reachable faithfully when the
loop guard fails). -/
def drain (chunkSize : Nat) (buffer : List Int) : List (List Int) × List Int :=
  if h : 0 < chunkSize ∧ chunkSize ≤ buffer.length then
    let rest := buffer.drop chunkSize
    let (cs, b) := drain chunkSize rest
    (buffer.take chunkSize :: cs, b)
  else
    ([], buffer)
termination_by buffer.length
decreasing_by
  simp only [List.length_drop]
  omega

/-- The `for input_ids in list_of_input_ids` loop (lines 36-43): each token
sequence gets the separator id appended, is pushed onto the persistent
buffer, and full chunks are drained. -/
def processTexts (chunkSize : Nat) (sep : Int) (buffer : List Int) :
    List (List Int) → List (List Int) × List Int
  | [] => ([], buffer)
  | ids :: rest =>
    let step := drain chunkSize (buffer ++ (ids ++ [sep]))
    let next := processTexts chunkSize sep step.2 rest
    (step.1 ++ next.1, next.2)

/-- `ProcessorForBertPretraining.__call__` (lines 19-45).  `examples` is the
dataset batch as an association list from column name to column values;
`tokenize` is the external tokenizer capability.  Returns the produced
dictionary (an association list, built as `{"input_ids": []}` and then
appended to) paired with the new buffer; the error branch (the failing
`assert`, line 21-23) leaves the buffer untouched since it fires before any
tokenization or buffer mutation. -/
def procCall (chunkSize : Nat) (sep : Int) (tokenize : String → List Int)
    (examples : List (String × List String)) (buffer : List Int) :
    Except Err (List (String × List (List Int))) × List Int :=
  if "text" ∈ examples.map Prod.fst then
    let texts := ((examples.find? (fun kv => kv.1 = "text")).map Prod.snd).getD []
    let result := processTexts chunkSize sep buffer (texts.map tokenize)
    (Except.ok [("input_ids", result.1)], result.2)
  else
    (Except.error Err.SchemaError, buffer)

/-- A sequence of consecutive `__call__`s on one processor instance: each
call's emitted chunks are collected in order and the buffer is threaded
through. -/
def multiCall (chunkSize : Nat) (sep : Int) (tokenize : String → List Int)
    (buffer : List Int) : List (List String) → List (List Int) × List Int
  | [] => ([], buffer)
  | texts :: rest =>
    let step := processTexts chunkSize sep buffer (texts.map tokenize)
    let next := multiCall chunkSize sep tokenize step.2 rest
    (step.1 ++ next.1, next.2)

/-! ### Conservation and invariant lemmas for the chunker -/

theorem drain_conservation (chunkSize : Nat) (buffer : List Int) :
    (drain chunkSize buffer).1.flatten ++ (drain chunkSize buffer).2 = buffer := by
  induction buffer using drain.induct chunkSize with
  | case1 buffer h rest cs b hcb ih =>
    rw [drain, dif_pos h]
    simp only [hcb] at ih ⊢
    simp only [List.flatten_cons, List.append_assoc, ih]
    exact List.take_append_drop chunkSize buffer
  | case2 buffer h =>
    rw [drain, dif_neg h]
    simp

theorem drain_small (chunkSize : Nat) (buffer : List Int) (h : 0 < chunkSize) :
    (drain chunkSize buffer).2.length < chunkSize := by
  induction buffer using drain.induct chunkSize with
  | case1 buffer hc rest cs b hcb ih =>
    rw [drain, dif_pos hc]
    simpa [hcb] using ih
  | case2 buffer hc =>
    rw [drain, dif_neg hc]
    simp only
    omega

theorem processTexts_conservation (chunkSize : Nat) (sep : Int)
    (buffer : List Int) (tokss : List (List Int)) :
    (processTexts chunkSize sep buffer tokss).1.flatten ++
      (processTexts chunkSize sep buffer tokss).2 =
      buffer ++ (tokss.map (fun ids => ids ++ [sep])).flatten := by
  induction tokss generalizing buffer with
  | nil => simp [processTexts]
  | cons ids rest ih =>
    simp only [processTexts, List.map_cons, List.flatten_cons, List.flatten_append,
      List.append_assoc]
    rw [ih]
    rw [← List.append_assoc]
    rw [drain_conservation]
    simp [List.append_assoc]

theorem processTexts_small (chunkSize : Nat) (sep : Int)
    (buffer : List Int) (tokss : List (List Int)) (h : 0 < chunkSize)
    (hb : buffer.length < chunkSize) :
    (processTexts chunkSize sep buffer tokss).2.length < chunkSize := by
  induction tokss generalizing buffer with
  | nil => simpa [processTexts] using hb
  | cons ids rest ih =>
    simp only [processTexts]
    exact ih _ (drain_small chunkSize _ h)

theorem processTexts_all_small (chunkSize : Nat) (sep : Int)
    (buffer : List Int) (tokss : List (List Int))
    (h : buffer.length + ((tokss.map (fun ids => ids ++ [sep])).flatten).length
        < chunkSize) :
    processTexts chunkSize sep buffer tokss =
      ([], buffer ++ (tokss.map (fun ids => ids ++ [sep])).flatten) := by
  induction tokss generalizing buffer with
  | nil => simp [processTexts]
  | cons ids rest ih =>
    simp only [List.map_cons, List.flatten_cons, List.length_append,
      List.length_cons, List.length_nil] at h
    have hd : ¬ (0 < chunkSize ∧ chunkSize ≤ (buffer ++ (ids ++ [sep])).length) := by
      simp only [List.length_append, List.length_cons, List.length_nil]
      omega
    simp only [processTexts]
    rw [drain, dif_neg hd]
    simp only
    rw [ih (buffer ++ (ids ++ [sep]))]
    · simp [List.append_assoc]
    · simp only [List.length_append, List.length_cons, List.length_nil]
      omega

/-! ## DataCollatorForBertPretraining -/

/-- The external tokenizer capability reused by the collator (lines 60, 127,
128, 130): pad token id, `build_inputs_with_special_tokens`,
`create_token_type_ids_from_sequences`, `convert_ids_to_tokens`; plus the
inherited `_whole_word_mask` capability (line 131). -/
structure TokenizerModel where
  padTokenId : Int
  buildInputs : List Int → List Int → List Int
  tokenTypeIds : List Int → List Int → List Int
  convertIdsToTokens : List Int → List String
  wholeWordMask : List String → List Int

/-- `DataCollatorForBertPretraining.__init__` field state (lines 53-67):
the pad token id, the optional `pad_to_multiple_of`, and - when a parallel
context is supplied - the stored `local_rank` and `local_world_size` drawn
from it. -/
structure CollatorCfg where
  padTokenId : Int
  padToMultipleOf : Option Nat
  parallel : Option (Nat × Nat)
  deriving DecidableEq, Repr

/-- `DataCollatorForBertPretraining.__init__` (lines 53-67).  The
constructor only stores its inputs: `tokenizer`, `mlm_probability`,
`pad_to_multiple_of`, `pad_token_id`, `parallel_context`, and (when a
context is present) `local_rank`/`local_world_size` read from the context.
It contains no validation and raises nothing, so the result is always
`Except.ok`; `parallelContext` is the pair (local rank, world size) the
context's getters return. -/
def collatorInit (padTokenId : Int) (padToMultipleOf : Option Nat)
    (parallelContext : Option (Nat × Nat)) : Except Err CollatorCfg :=
  Except.ok
    { padTokenId := padTokenId
      padToMultipleOf := padToMultipleOf
      parallel := parallelContext }

/-- `random.randrange(start, stop)` with an explicit raw draw: returns a
value in `[start, stop)` when the range is non-empty, and raises
`ValueError` (modelled as `RangeError`) when `start ≥ stop`. -/
def randrange (start stop draw : Nat) : Except Err Nat :=
  if start < stop then Except.ok (start + draw % (stop - start))
  else Except.error Err.RangeError

/-- Lines 115-117: `start, end = seq_length // 3, seq_length // 3 * 2` and
`split_position = random.randrange(start, end)`. -/
def splitPosition (seqLength draw : Nat) : Except Err Nat :=
  randrange (seqLength / 3) (seqLength / 3 * 2) draw

/-- Lines 120-125: the segment pair `(token_a, token_b)` produced from a
chunk, the chosen split position and the `reverse` coin. -/
def segments (chunk : List Int) (p : Nat) (rev : Bool) : List Int × List Int :=
  if rev then (chunk.drop p, chunk.take p)
  else (chunk.take p, chunk.drop p)

/-- One training example as assembled by
`_prepare_wwm_and_sop_from_examples` (lines 133-140). -/
structure PreparedExample where
  input_ids : List Int
  token_type_ids : List Int
  next_sentence_label : Int
  mask_label : List Int
  deriving DecidableEq, Repr

/-- The body of the `for example in examples` loop of
`_prepare_wwm_and_sop_from_examples` (lines 113-140) for one example.  An
input example is an association list of fields; `example["input_ids"]`
raises `KeyError` (modelled `SchemaError`) when the field is absent.
`draw` and `rev` are the example's random draws (`random.randrange`,
`random.random() < 0.5`). -/
def prepareOne (tok : TokenizerModel) (draw : Nat) (rev : Bool)
    (ex : List (String × List Int)) : Except Err PreparedExample :=
  match (ex.find? (fun kv => kv.1 = "input_ids")).map Prod.snd with
  | none => Except.error Err.SchemaError
  | some chunk_ids =>
    match splitPosition chunk_ids.length draw with
    | Except.error e => Except.error e
    | Except.ok p =>
      let seg := segments chunk_ids p rev
      let input_ids := tok.buildInputs seg.1 seg.2
      Except.ok
        { input_ids := input_ids
          token_type_ids := tok.tokenTypeIds seg.1 seg.2
          next_sentence_label := if rev then 1 else 0
          mask_label := tok.wholeWordMask (tok.convertIdsToTokens input_ids) }

/-- `_prepare_wwm_and_sop_from_examples` (lines 111-141) over a batch;
`draws`/`revs` supply each example's random choices by position. -/
def prepareAll (tok : TokenizerModel) (draws : Nat → Nat) (revs : Nat → Bool)
    (i : Nat) : List (List (String × List Int)) →
    Except Err (List PreparedExample)
  | [] => Except.ok []
  | ex :: rest =>
    match prepareOne tok (draws i) (revs i) ex with
    | Except.error e => Except.error e
    | Except.ok pe =>
      match prepareAll tok draws revs (i + 1) rest with
      | Except.error e => Except.error e
      | Except.ok pes => Except.ok (pe :: pes)

/-- A batch tensor value: 1-D (`value.dim() < 2`, passed through by the
sharding loop) or 2-D (rows × sequence positions). -/
inductive TVal where
  | t1 : List Int → TVal
  | t2 : List (List Int) → TVal
  deriving DecidableEq, Repr

/-- `tokenizer.pad(examples, return_tensors="pt", pad_to_multiple_of=...)`
(line 71), the external padding capability per the spec's Stage B: every
per-example sequence is right-padded to the common length (`input_ids`
with the pad token id, `token_type_ids` and `mask_label` with 0), an
`attention_mask` of 1s over real tokens and 0s over padding is added, and
the scalar `next_sentence_label`s become a 1-D field. -/
def padBatch (padId : Int) (padToMultipleOf : Option Nat)
    (exs : List PreparedExample) : List (String × TVal) :=
  let maxLen := (exs.map (fun e => e.input_ids.length)).foldr max 0
  let L := match padToMultipleOf with
    | none => maxLen
    | some k => if k = 0 then maxLen else ((maxLen + k - 1) / k) * k
  let padTo := fun (fill : Int) (row : List Int) =>
    row ++ List.replicate (L - row.length) fill
  [("input_ids", TVal.t2 (exs.map (fun e => padTo padId e.input_ids))),
   ("token_type_ids", TVal.t2 (exs.map (fun e => padTo 0 e.token_type_ids))),
   ("attention_mask", TVal.t2 (exs.map (fun e =>
      List.replicate e.input_ids.length 1 ++
        List.replicate (L - e.input_ids.length) 0))),
   ("next_sentence_label", TVal.t1 (exs.map (fun e => e.next_sentence_label))),
   ("mask_label", TVal.t2 (exs.map (fun e => padTo 0 e.mask_label)))]

/-- The role-specific fill value of the sharding stage (lines 88-95):
`labels` → -100, `token_type_ids` → 1, `attention_mask` → 0, every other
field → the tokenizer's pad token id. -/
def fillValue (padTokenId : Int) (key : String) : Int :=
  if key = "labels" then -100
  else if key = "token_type_ids" then 1
  else if key = "attention_mask" then 0
  else padTokenId

/-- Lines 84-97: when `seq_length % world_size != 0`, right-pad each row
with `required_length - seq_length` copies of the role-specific fill value;
otherwise leave the tensor unchanged. -/
def padForSharding (worldSize : Nat) (padTokenId : Int) (key : String)
    (m : List (List Int)) : List (List Int) :=
  let seqLength := (m.headD []).length
  if seqLength % worldSize ≠ 0 then
    let required := (seqLength / worldSize + 1) * worldSize
    m.map (fun row =>
      row ++ List.replicate (required - seqLength) (fillValue padTokenId key))
  else m

/-- Lines 84-107 for one 2-D field: pad to a multiple of `world_size`, then
`value.chunk(world_size, dim=1)[local_rank]` - `torch.chunk` cuts the
sequence dimension into pieces of width `⌈width / world_size⌉` and the
rank keeps its own piece. -/
def shardField (worldSize localRank : Nat) (padTokenId : Int) (key : String)
    (m : List (List Int)) : List (List Int) :=
  let padded := padForSharding worldSize padTokenId key m
  let width := (padded.headD []).length
  let chunkW := (width + worldSize - 1) / worldSize
  padded.map (fun row => (row.drop (localRank * chunkW)).take chunkW)

/-- Concatenation of a list of matrices along the sequence (column)
dimension, used to state the sharding round-trip. -/
def concatCols : List (List (List Int)) → List (List Int)
  | [] => []
  | [m] => m
  | m :: ms => List.zipWith (fun a b => a ++ b) m (concatCols ms)

/-- `DataCollatorForBertPretraining.__call__` (lines 69-109).
`maskTokens` is the inherited external `torch_mask_tokens` capability
(line 73), mapping the padded `input_ids` and the popped `mask_label` to
the corrupted `input_ids` and the `labels`.  Steps: Stage A
(`_prepare_wwm_and_sop_from_examples`), Stage B (`tokenizer.pad`, pop
`mask_label` - a `KeyError`/`SchemaError` if the key is absent - and
masking), then Stage C sharding when a parallel context is present
(`seq_length % 0` raises `ZeroDivisionError` when the world size is 0). -/
def collatorCall (cfg : CollatorCfg) (tok : TokenizerModel)
    (maskTokens : List (List Int) → List (List Int) →
      List (List Int) × List (List Int))
    (draws : Nat → Nat) (revs : Nat → Bool)
    (examples : List (List (String × List Int))) :
    Except Err (List (String × TVal)) :=
  match prepareAll tok draws revs 0 examples with
  | Except.error e => Except.error e
  | Except.ok prepared =>
    let batch := padBatch cfg.padTokenId cfg.padToMultipleOf prepared
    match (batch.find? (fun kv => kv.1 = "mask_label")).map Prod.snd with
    | none => Except.error Err.SchemaError
    | some (TVal.t1 _) => Except.error Err.SchemaError
    | some (TVal.t2 batchMask) =>
      let batch := batch.filter (fun kv => kv.1 ≠ "mask_label")
      let ids := match (batch.find? (fun kv => kv.1 = "input_ids")).map Prod.snd with
        | some (TVal.t2 v) => v
        | _ => []
      let masked := maskTokens ids batchMask
      let batch := (batch.map (fun kv =>
          if kv.1 = "input_ids" then ("input_ids", TVal.t2 masked.1) else kv))
        ++ [("labels", TVal.t2 masked.2)]
      match cfg.parallel with
      | none => Except.ok batch
      | some (localRank, worldSize) =>
        if worldSize = 0 then Except.error Err.ZeroDivisionError
        else
          Except.ok (batch.map (fun kv =>
            match kv.2 with
            | TVal.t1 v => (kv.1, TVal.t1 v)
            | TVal.t2 m =>
              (kv.1, TVal.t2 (shardField worldSize localRank cfg.padTokenId kv.1 m))))

theorem multiCall_conservation (chunkSize : Nat) (sep : Int)
    (tokenize : String → List Int) (buffer : List Int)
    (calls : List (List String)) :
    (multiCall chunkSize sep tokenize buffer calls).1.flatten ++
      (multiCall chunkSize sep tokenize buffer calls).2 =
      buffer ++
        ((calls.flatten.map tokenize).map (fun ids => ids ++ [sep])).flatten := by
  induction calls generalizing buffer with
  | nil => simp [multiCall]
  | cons texts rest ih =>
    simp only [multiCall, List.flatten_cons, List.flatten_append,
      List.append_assoc, List.map_append]
    rw [ih]
    rw [← List.append_assoc]
    rw [processTexts_conservation]
    simp [List.append_assoc]

/-! ## Claim theorems for the processor -/

/-- C1: across any sequence of consecutive `__call__`s on one processor
instance (whose buffer starts empty at construction), the concatenation of
all emitted chunks in emission order followed by the final buffer equals
the concatenation, in input order, of each text's tokenized id sequence
with the separator id appended: no token is lost or duplicated. -/
theorem claim_token_conservation (chunkSize : Nat) (sep : Int)
    (tokenize : String → List Int) (calls : List (List String))
    (h : 0 < chunkSize) :
    (multiCall chunkSize sep tokenize [] calls).1.flatten ++
      (multiCall chunkSize sep tokenize [] calls).2 =
      ((calls.flatten.map tokenize).map (fun ids => ids ++ [sep])).flatten := by
  have _ := h
  simpa using multiCall_conservation chunkSize sep tokenize [] calls

theorem claim_token_conservation_witness :
    (0 : Nat) < 10 ∧
      (multiCall 10 102 (fun t => List.replicate t.length 7) []
          [["aaaaaaaaaaaa"], ["bbbbbbb", "ccc"]]).1.flatten ++
        (multiCall 10 102 (fun t => List.replicate t.length 7) []
          [["aaaaaaaaaaaa"], ["bbbbbbb", "ccc"]]).2 =
        ((([["aaaaaaaaaaaa"], ["bbbbbbb", "ccc"]] :
            List (List String)).flatten.map
              (fun t => List.replicate t.length (7 : Int))).map
          (fun ids => ids ++ [102])).flatten :=
  ⟨by decide,
    claim_token_conservation 10 102 (fun t => List.replicate t.length 7)
      [["aaaaaaaaaaaa"], ["bbbbbbb", "ccc"]] (by decide)⟩

/-- C4: calling `ProcessorForBertPretraining.__call__` on a batch with no
column named `text` fails with a `SchemaError` (the `assert` on lines
21-23, which fires before any tokenization or buffer mutation: the buffer
is returned untouched). -/
theorem claim_missing_text_schema_error (chunkSize : Nat) (sep : Int)
    (tokenize : String → List Int) (examples : List (String × List String))
    (buffer : List Int) (h : "text" ∉ examples.map Prod.fst) :
    procCall chunkSize sep tokenize examples buffer =
      (Except.error Err.SchemaError, buffer) := by
  simp only [procCall, if_neg h]

theorem claim_missing_text_schema_error_witness :
    "text" ∉ ([("label", ["x"]), ("title", ["y"])].map
        (Prod.fst (β := List String))) ∧
      procCall 10 102 (fun _ => [1]) [("label", ["x"]), ("title", ["y"])]
          [3, 4] = (Except.error Err.SchemaError, [3, 4]) :=
  ⟨by decide,
    claim_missing_text_schema_error 10 102 (fun _ => [1])
      [("label", ["x"]), ("title", ["y"])] [3, 4] (by decide)⟩

/-- C7: after every `__call__` that returns, the internal buffer is
strictly shorter than `chunk_size = max_length - 3` (given the invariant
held on entry, as it does from construction where the buffer is empty, and
`max_length > 3` so the drain loop terminates). -/
theorem claim_buffer_invariant (maxLength : Nat) (sep : Int)
    (tokenize : String → List Int) (examples : List (String × List String))
    (buffer : List Int) (h3 : 3 < maxLength)
    (hb : buffer.length < chunkSizeOf maxLength) :
    (procCall (chunkSizeOf maxLength) sep tokenize examples buffer).2.length <
      chunkSizeOf maxLength := by
  by_cases hc : "text" ∈ examples.map Prod.fst
  · simp only [procCall, if_pos hc]
    exact processTexts_small _ _ _ _ (by unfold chunkSizeOf; omega) hb
  · simp only [procCall, if_neg hc]
    exact hb

theorem claim_buffer_invariant_witness :
    3 < 13 ∧ ([1, 2, 3] : List Int).length < chunkSizeOf 13 ∧
      (procCall (chunkSizeOf 13) 102
          (fun t => List.replicate t.length 7)
          [("text", ["aaaaaaaaaaaaaaaaaaaaaaaaa"])] [1, 2, 3]).2.length <
        chunkSizeOf 13 :=
  ⟨by decide, by decide,
    claim_buffer_invariant 13 102 (fun t => List.replicate t.length 7)
      [("text", ["aaaaaaaaaaaaaaaaaaaaaaaaa"])] [1, 2, 3]
      (by decide) (by decide)⟩

/-- C10: every successful `__call__` returns a dictionary with exactly one
key, `input_ids`; and when the buffered tokens (including this call's
texts and separators) never reach `chunk_size`, that key maps to the empty
list while all tokens are retained in the buffer. -/
theorem claim_single_output_key (chunkSize : Nat) (sep : Int)
    (tokenize : String → List Int) (examples : List (String × List String))
    (buffer : List Int) (texts : List String)
    (hfind : examples.find? (fun kv => kv.1 = "text") = some ("text", texts)) :
    procCall chunkSize sep tokenize examples buffer =
      (Except.ok [("input_ids",
          (processTexts chunkSize sep buffer (texts.map tokenize)).1)],
        (processTexts chunkSize sep buffer (texts.map tokenize)).2) ∧
    (buffer.length +
        (((texts.map tokenize).map (fun ids => ids ++ [sep])).flatten).length
          < chunkSize →
      (processTexts chunkSize sep buffer (texts.map tokenize)).1 = [] ∧
      (processTexts chunkSize sep buffer (texts.map tokenize)).2 =
        buffer ++ ((texts.map tokenize).map (fun ids => ids ++ [sep])).flatten) := by
  have hmem : ("text", texts) ∈ examples := List.mem_of_find?_eq_some hfind
  have htext : "text" ∈ examples.map Prod.fst :=
    List.mem_map.mpr ⟨("text", texts), hmem, rfl⟩
  refine ⟨?_, fun hsmall => ?_⟩
  · simp only [procCall, if_pos htext, hfind]
    rfl
  · rw [processTexts_all_small chunkSize sep buffer (texts.map tokenize) hsmall]
    exact ⟨rfl, rfl⟩

theorem claim_single_output_key_witness :
    procCall 10 102 (fun t => List.replicate t.length 7)
        [("text", ["abc", "de"])] [5] =
      (Except.ok [("input_ids",
          (processTexts 10 102 [5]
            (["abc", "de"].map (fun t => List.replicate t.length 7))).1)],
        (processTexts 10 102 [5]
          (["abc", "de"].map (fun t => List.replicate t.length 7))).2) ∧
    ((([5] : List Int).length +
        (((["abc", "de"].map (fun t => List.replicate t.length (7 : Int))).map
          (fun ids => ids ++ [102])).flatten).length < 10) →
      (processTexts 10 102 [5]
        (["abc", "de"].map (fun t => List.replicate t.length 7))).1 = [] ∧
      (processTexts 10 102 [5]
        (["abc", "de"].map (fun t => List.replicate t.length 7))).2 =
        [5] ++ ((["abc", "de"].map (fun t => List.replicate t.length 7)).map
          (fun ids => ids ++ [102])).flatten) :=
  claim_single_output_key 10 102 (fun t => List.replicate t.length 7)
    [("text", ["abc", "de"])] [5] ["abc", "de"] (by decide)

/-! ## Claim theorems for the sharding stage -/

/-- C2: in the sharding stage, for every 2-D field whose sequence length is
not divisible by `world_size`, the positions appended before splitting are
filled with -100 for `labels`, 1 for `token_type_ids`, 0 for
`attention_mask`, and the tokenizer's pad token id for every other field
(e.g. `input_ids`). -/
theorem claim_shard_pad_fill_values (worldSize : Nat) (padTokenId : Int)
    (key : String) (m : List (List Int)) (seqLen : Nat)
    (hne : m ≠ []) (hrect : ∀ r ∈ m, r.length = seqLen)
    (hmod : seqLen % worldSize ≠ 0) :
    (key = "labels" →
      padForSharding worldSize padTokenId key m =
        m.map (fun row => row ++
          List.replicate ((seqLen / worldSize + 1) * worldSize - seqLen) (-100))) ∧
    (key = "token_type_ids" →
      padForSharding worldSize padTokenId key m =
        m.map (fun row => row ++
          List.replicate ((seqLen / worldSize + 1) * worldSize - seqLen) 1)) ∧
    (key = "attention_mask" →
      padForSharding worldSize padTokenId key m =
        m.map (fun row => row ++
          List.replicate ((seqLen / worldSize + 1) * worldSize - seqLen) 0)) ∧
    (key ≠ "labels" → key ≠ "token_type_ids" → key ≠ "attention_mask" →
      padForSharding worldSize padTokenId key m =
        m.map (fun row => row ++
          List.replicate ((seqLen / worldSize + 1) * worldSize - seqLen) padTokenId)) := by
  have hh : (m.headD []).length = seqLen := by
    obtain ⟨r, rest, rfl⟩ := List.exists_cons_of_ne_nil hne
    exact hrect r (List.mem_cons_self r rest)
  refine ⟨fun hk => ?_, fun hk => ?_, fun hk => ?_, fun h1 h2 h3 => ?_⟩ <;>
    simp only [padForSharding, hh, if_pos hmod]
  · subst hk; simp [fillValue]
  · subst hk; simp [fillValue]
  · subst hk; simp [fillValue]
  · simp [fillValue, h1, h2, h3]

theorem claim_shard_pad_fill_values_witness :
    (([[(5 : Int), 6, 7]] : List (List Int)) ≠ [] ∧ (3 % 2 ≠ 0)) ∧
      (("labels" : String) = "labels" →
        padForSharding 2 9 "labels" [[5, 6, 7]] =
          [[5, 6, 7]].map (fun row => row ++
            List.replicate ((3 / 2 + 1) * 2 - 3) (-100))) :=
  ⟨⟨by decide, by decide⟩,
    (claim_shard_pad_fill_values 2 9 "labels" [[5, 6, 7]] 3 (by decide)
      (by decide) (by decide)).1⟩

theorem drop_take_concat_12 (row : List Int) (h : row.length = 12) :
    row.take 3 ++ ((row.drop 3).take 3 ++
      ((row.drop 6).take 3 ++ (row.drop 9).take 3)) = row := by
  have e9 : (row.drop 9).take 3 = row.drop 9 :=
    List.take_of_length_le (by simp [h])
  have d96 : row.drop 9 = (row.drop 6).drop 3 := by simp [List.drop_drop]
  have d63 : row.drop 6 = (row.drop 3).drop 3 := by simp [List.drop_drop]
  rw [e9, d96, List.take_append_drop, d63, List.take_append_drop,
    List.take_append_drop]

theorem concatCols_shards_12 (padded : List (List Int))
    (hlen : ∀ r ∈ padded, r.length = 12) :
    concatCols [padded.map (fun row => (row.drop 0).take 3),
                padded.map (fun row => (row.drop 3).take 3),
                padded.map (fun row => (row.drop 6).take 3),
                padded.map (fun row => (row.drop 9).take 3)] = padded := by
  induction padded with
  | nil => rfl
  | cons r rest ih =>
    have hr : r.length = 12 := hlen r (List.mem_cons_self r rest)
    have ih' := ih (fun x hx => hlen x (List.mem_cons_of_mem r hx))
    simp only [List.map_cons, concatCols, List.zipWith_cons_cons,
      List.drop_zero] at ih' ⊢
    rw [drop_take_concat_12 r hr, ih']

/-- C3: sharding round-trip for `world_size = 4` on a field of sequence
length 10 - the field is right-padded to length 12 before splitting, each
of the 4 ranks' shards has sequence length 3, and concatenating the 4
ranks' shards along the sequence dimension in rank order reproduces the
padded (not the original length-10) tensor exactly. -/
theorem claim_sharding_roundtrip (padTokenId : Int) (key : String)
    (m : List (List Int)) (hne : m ≠ []) (hrect : ∀ r ∈ m, r.length = 10) :
    (∀ r ∈ padForSharding 4 padTokenId key m, r.length = 12) ∧
    (∀ rank, rank < 4 →
      ∀ r ∈ shardField 4 rank padTokenId key m, r.length = 3) ∧
    concatCols ((List.range 4).map
        (fun rank => shardField 4 rank padTokenId key m)) =
      padForSharding 4 padTokenId key m := by
  obtain ⟨r0, rest, rfl⟩ := List.exists_cons_of_ne_nil hne
  have hh : ((r0 :: rest).headD []).length = 10 :=
    hrect r0 (List.mem_cons_self r0 rest)
  have hpad : padForSharding 4 padTokenId key (r0 :: rest) =
      (r0 :: rest).map (fun row => row ++
        List.replicate 2 (fillValue padTokenId key)) := by
    simp only [padForSharding, hh]
    norm_num
  have hplen : ∀ r ∈ padForSharding 4 padTokenId key (r0 :: rest),
      r.length = 12 := by
    intro r hr
    rw [hpad] at hr
    obtain ⟨row, hrow, rfl⟩ := List.mem_map.mp hr
    simp [hrect row hrow]
  have hshard : ∀ rank, shardField 4 rank padTokenId key (r0 :: rest) =
      (padForSharding 4 padTokenId key (r0 :: rest)).map
        (fun row => (row.drop (rank * 3)).take 3) := by
    intro rank
    have hw : ((padForSharding 4 padTokenId key (r0 :: rest)).headD []).length
        = 12 := by
      rw [hpad]
      simp [hrect r0 (List.mem_cons_self r0 rest)]
    simp only [shardField, hw]
  refine ⟨hplen, ?_, ?_⟩
  · intro rank hrank r hr
    rw [hshard rank] at hr
    obtain ⟨row, hrow, rfl⟩ := List.mem_map.mp hr
    have h12 : row.length = 12 := hplen row hrow
    simp only [List.length_take, List.length_drop, h12]
    omega
  · have hrange : List.range 4 = [0, 1, 2, 3] := by decide
    rw [hrange]
    simp only [List.map_cons, List.map_nil, hshard]
    norm_num
    exact concatCols_shards_12 _ hplen

theorem claim_sharding_roundtrip_witness :
    (([[(0 : Int), 1, 2, 3, 4, 5, 6, 7, 8, 9]] : List (List Int)) ≠ [] ∧
      ∀ r ∈ ([[(0 : Int), 1, 2, 3, 4, 5, 6, 7, 8, 9]] : List (List Int)),
        r.length = 10) ∧
    concatCols ((List.range 4).map
        (fun rank => shardField 4 rank 7 "input_ids"
          [[0, 1, 2, 3, 4, 5, 6, 7, 8, 9]])) =
      padForSharding 4 7 "input_ids" [[0, 1, 2, 3, 4, 5, 6, 7, 8, 9]] :=
  ⟨⟨by decide, by decide⟩,
    (claim_sharding_roundtrip 7 "input_ids" [[0, 1, 2, 3, 4, 5, 6, 7, 8, 9]]
      (by decide) (by decide)).2.2⟩

/-! ## Claim theorems for the collator constructor and Stage A -/

/-- A concrete instantiation of the external tokenizer capability, used in
concrete evaluations: BERT-style `[CLS] A [SEP] B [SEP]` with ids 101/102,
opaque token strings, and a whole-word mask that selects nothing. -/
def tokSimple : TokenizerModel :=
  { padTokenId := 0
    buildInputs := fun a b => 101 :: (a ++ 102 :: (b ++ [102]))
    tokenTypeIds := fun a b =>
      List.replicate (a.length + 2) 0 ++ List.replicate (b.length + 1) 1
    convertIdsToTokens := fun ids => ids.map (fun _ => "w")
    wholeWordMask := fun toks => toks.map (fun _ => 0) }

theorem splitPosition_ok (n draw : Nat) (h3 : 3 ≤ n) :
    ∃ p, splitPosition n draw = Except.ok p ∧ n / 3 ≤ p ∧ p < n / 3 * 2 := by
  have h1 : 1 ≤ n / 3 := (Nat.one_le_div_iff (by norm_num)).mpr h3
  have hlt : n / 3 < n / 3 * 2 := by omega
  refine ⟨n / 3 + draw % (n / 3 * 2 - n / 3), ?_, ?_, ?_⟩
  · simp [splitPosition, randrange, hlt]
  · omega
  · have := Nat.mod_lt draw (y := n / 3 * 2 - n / 3) (by omega)
    omega

theorem splitPosition_err (n draw : Nat) (h3 : n < 3) :
    splitPosition n draw = Except.error Err.RangeError := by
  have h0 : n / 3 = 0 := Nat.div_eq_of_lt h3
  simp [splitPosition, randrange, h0]

/-- C5 is violated by the code: constructing the collator with a sharding
configuration whose world size is 0 raises nothing - the constructor
stores the configuration and returns normally. -/
theorem claim_config_error_counterexample :
    collatorInit 0 none (some (0, 0)) =
      Except.ok { padTokenId := 0, padToMultipleOf := none,
                  parallel := some (0, 0) } := rfl

/-- C5 (amended): the constructor performs no validation - for any
sharding configuration with `world_size = 0` or `local_rank` outside
`[0, world_size)`, construction succeeds and stores the values as given;
no `ConfigError` is raised at construction time. -/
theorem claim_init_no_validation (padTokenId : Int)
    (padToMultipleOf : Option Nat) (localRank worldSize : Nat)
    (h : worldSize = 0 ∨ ¬ localRank < worldSize) :
    collatorInit padTokenId padToMultipleOf (some (localRank, worldSize)) =
      Except.ok { padTokenId := padTokenId
                  padToMultipleOf := padToMultipleOf
                  parallel := some (localRank, worldSize) } := by
  have _ := h
  rfl

theorem claim_init_no_validation_witness :
    ((0 : Nat) = 0 ∨ ¬ (3 : Nat) < 0) ∧
      collatorInit 5 none (some (3, 0)) =
        Except.ok { padTokenId := 5, padToMultipleOf := none,
                    parallel := some (3, 0) } :=
  ⟨Or.inl rfl, claim_init_no_validation 5 none 3 0 (Or.inl rfl)⟩

/-- C6 is violated by the code: on a chunk of length 2 (so the range
`[n//3, (n//3)*2) = [0, 0)` is empty), `random.randrange` fails with
`ValueError` (`RangeError`) - there is no fallback. -/
theorem claim_split_fallback_counterexample :
    prepareOne tokSimple 0 false [("input_ids", [5, 6])] =
      Except.error Err.RangeError := rfl

/-- C6 (amended): for a chunk of length `n ≥ 3` the chosen split position
satisfies `n//3 ≤ split_position < (n//3)*2`; when that range is empty
(`n < 3`) the `random.randrange` call fails with `RangeError`
(`ValueError`) instead of applying a fallback. -/
theorem claim_split_position_range (n draw : Nat) :
    (3 ≤ n → ∃ p, splitPosition n draw = Except.ok p ∧
      n / 3 ≤ p ∧ p < n / 3 * 2) ∧
    (n < 3 → splitPosition n draw = Except.error Err.RangeError) :=
  ⟨splitPosition_ok n draw, splitPosition_err n draw⟩

theorem claim_split_position_range_witness :
    ∃ p, splitPosition 10 7 = Except.ok p ∧ 10 / 3 ≤ p ∧ p < 10 / 3 * 2 :=
  (claim_split_position_range 10 7).1 (by decide)

/-- C8: for every example built in Stage A from a chunk with a non-empty
split range, the sentence-order label is 1 iff the reverse branch was
taken; when reverse, segment A is `chunk[split_position:]` and segment B
is `chunk[:split_position]`, and otherwise segment A is
`chunk[:split_position]` and segment B is `chunk[split_position:]` with
label 0. -/
theorem claim_sop_label_reverse (tok : TokenizerModel) (draw : Nat)
    (rev : Bool) (ex : List (String × List Int)) (chunk : List Int)
    (hfind : ex.find? (fun kv => kv.1 = "input_ids") =
      some ("input_ids", chunk))
    (h3 : 3 ≤ chunk.length) :
    ∃ p, splitPosition chunk.length draw = Except.ok p ∧
      prepareOne tok draw rev ex = Except.ok
        { input_ids := tok.buildInputs
            (if rev then chunk.drop p else chunk.take p)
            (if rev then chunk.take p else chunk.drop p)
          token_type_ids := tok.tokenTypeIds
            (if rev then chunk.drop p else chunk.take p)
            (if rev then chunk.take p else chunk.drop p)
          next_sentence_label := if rev then 1 else 0
          mask_label := tok.wholeWordMask (tok.convertIdsToTokens
            (tok.buildInputs
              (if rev then chunk.drop p else chunk.take p)
              (if rev then chunk.take p else chunk.drop p))) } ∧
      ((if rev then (1 : Int) else 0) = 1 ↔ rev = true) := by
  obtain ⟨p, hp, -, -⟩ := splitPosition_ok chunk.length draw h3
  refine ⟨p, hp, ?_, ?_⟩
  · cases rev <;> simp [prepareOne, hfind, hp, segments]
  · cases rev <;> simp

theorem claim_sop_label_reverse_witness :
    ∃ p, splitPosition 5 1 = Except.ok p ∧
      prepareOne tokSimple 1 true [("input_ids", [1, 2, 3, 4, 5])] =
        Except.ok
          { input_ids := tokSimple.buildInputs
              (([1, 2, 3, 4, 5] : List Int).drop p)
              (([1, 2, 3, 4, 5] : List Int).take p)
            token_type_ids := tokSimple.tokenTypeIds
              (([1, 2, 3, 4, 5] : List Int).drop p)
              (([1, 2, 3, 4, 5] : List Int).take p)
            next_sentence_label := 1
            mask_label := tokSimple.wholeWordMask
              (tokSimple.convertIdsToTokens
                (tokSimple.buildInputs
                  (([1, 2, 3, 4, 5] : List Int).drop p)
                  (([1, 2, 3, 4, 5] : List Int).take p))) } ∧
      ((1 : Int) = 1 ↔ true = true) :=
  claim_sop_label_reverse tokSimple 1 true [("input_ids", [1, 2, 3, 4, 5])]
    [1, 2, 3, 4, 5] rfl (by decide)


/-! ## Claim theorems for the collator call (mask_label handling) -/

theorem prepareAll_ok (tok : TokenizerModel) (draws : Nat → Nat)
    (revs : Nat → Bool) (i : Nat) (exs : List (List (String × List Int)))
    (h : ∀ ex ∈ exs, ∃ chunk,
      ex.find? (fun kv => kv.1 = "input_ids") = some ("input_ids", chunk) ∧
      3 ≤ chunk.length) :
    ∃ pes, prepareAll tok draws revs i exs = Except.ok pes := by
  induction exs generalizing i with
  | nil => exact ⟨[], rfl⟩
  | cons ex rest ih =>
    obtain ⟨chunk, hfind, h3⟩ := h ex (List.mem_cons_self ex rest)
    obtain ⟨p, hp, -, -⟩ := splitPosition_ok chunk.length (draws i) h3
    obtain ⟨pes, hpes⟩ := ih (i + 1) (fun x hx => h x (List.mem_cons_of_mem ex hx))
    have hone : prepareOne tok (draws i) (revs i) ex = Except.ok
        { input_ids := tok.buildInputs (segments chunk p (revs i)).1
            (segments chunk p (revs i)).2
          token_type_ids := tok.tokenTypeIds (segments chunk p (revs i)).1
            (segments chunk p (revs i)).2
          next_sentence_label := if revs i then 1 else 0
          mask_label := tok.wholeWordMask (tok.convertIdsToTokens
            (tok.buildInputs (segments chunk p (revs i)).1
              (segments chunk p (revs i)).2)) } := by
      simp [prepareOne, hfind, hp]
    refine ⟨PreparedExample.mk
        (tok.buildInputs (segments chunk p (revs i)).1 (segments chunk p (revs i)).2)
        (tok.tokenTypeIds (segments chunk p (revs i)).1 (segments chunk p (revs i)).2)
        (if revs i then 1 else 0)
        (tok.wholeWordMask (tok.convertIdsToTokens
          (tok.buildInputs (segments chunk p (revs i)).1 (segments chunk p (revs i)).2)))
        :: pes, ?_⟩
    simp only [prepareAll, hone, hpes]

/-- C9 (amended): a missing `mask_label` field in the input examples does
not raise - Stage A regenerates `mask_label` for every example, so the
call succeeds (without sharding) whenever every example carries an
`input_ids` chunk whose split range is non-empty. -/
theorem claim_mask_label_regenerated (cfg : CollatorCfg) (tok : TokenizerModel)
    (maskTokens : List (List Int) → List (List Int) →
      List (List Int) × List (List Int))
    (draws : Nat → Nat) (revs : Nat → Bool)
    (exs : List (List (String × List Int)))
    (hpar : cfg.parallel = none)
    (h : ∀ ex ∈ exs, ∃ chunk,
      ex.find? (fun kv => kv.1 = "input_ids") = some ("input_ids", chunk) ∧
      3 ≤ chunk.length) :
    (collatorCall cfg tok maskTokens draws revs exs).isOk = true := by
  obtain ⟨pes, hpes⟩ := prepareAll_ok tok draws revs 0 exs h
  simp [collatorCall, hpes, hpar, padBatch, List.find?, Except.isOk]
  rfl


/-- C9 is violated by the code: calling the collator on a batch whose only
example has no `mask_label` field raises nothing - the call returns a
batch successfully, because `_prepare_wwm_and_sop_from_examples` builds
`mask_label` itself before `batch.pop("mask_label")` runs. -/
theorem claim_missing_mask_label_counterexample :
    (collatorCall { padTokenId := 0, padToMultipleOf := none, parallel := none }
      tokSimple (fun ids _ => (ids, ids)) (fun _ => 0) (fun _ => false)
      [[("input_ids", [1, 2, 3, 4])]]).isOk = true := rfl

theorem claim_mask_label_regenerated_witness :
    ({ padTokenId := 0, padToMultipleOf := none,
        parallel := none } : CollatorCfg).parallel = none ∧
      (collatorCall
        { padTokenId := 0, padToMultipleOf := none, parallel := none }
        tokSimple (fun ids _ => (ids, ids)) (fun _ => 1) (fun _ => true)
        [[("input_ids", [1, 2, 3, 4, 5])]]).isOk = true :=
  ⟨rfl,
    claim_mask_label_regenerated
      { padTokenId := 0, padToMultipleOf := none, parallel := none }
      tokSimple (fun ids _ => (ids, ids)) (fun _ => 1) (fun _ => true)
      [[("input_ids", [1, 2, 3, 4, 5])]] rfl
      (by
        intro ex hex
        rw [List.mem_singleton] at hex
        subst hex
        exact ⟨[1, 2, 3, 4, 5], rfl, by norm_num⟩)⟩
